import Mathlib

/-!
Verification of the def-use simplification pass (`simplifyDefUse.cpp`):
the `HasUses` set with its `SliceTracker`, the `FindUninitialized`
flow-sensitive visitor, and the `RemoveUnused` rewriter.

The IR, the visitor state and the pass logic are embedded shallowly from
the source.  External collaborators (the reference map, the type map, the
storage map, the reaching-definitions oracle `AllDefinitions`, the
`SideEffects` analysis, `TableApplySolver`, `MethodInstance::resolve`)
live in other translation units; they are modelled as oracle parameters
gathered in an environment record, exactly at the interface the pass
consumes.  Node identity (C++ pointer identity) is modelled by a numeric
id carried on every IR node.
-/

namespace SimplifyDefUse

/-- Parameter directions of the IR (`IR::Direction`). -/
inductive Direction where
  | dirNone | dirIn | dirOut | dirInOut
  deriving DecidableEq, Repr

/-- The fragment of the IR type system the pass inspects via `is<...>`. -/
inductive Ty where
  | base        -- `IR::Type_Base`
  | header      -- `IR::Type_Header`
  | stack       -- `IR::Type_Stack`
  | structLike  -- struct and other composite types
  | method      -- `IR::Type_Method`
  | voidTy      -- `IR::Type_Void`
  | other
  deriving DecidableEq, Repr

/-- IR expressions, covering the nodes `FindUninitialized` dispatches on.
Every node carries its identity `eid` (C++ pointer identity). -/
inductive Expr where
  | literal (eid : Nat)
  | typeNameExpr (eid : Nat)
  | pathExpr (name : String) (eid : Nat)
  | member (e : Expr) (m : String) (eid : Nat)
  | arrayIndex (left right : Expr) (eid : Nat)
  | sliceE (e0 : Expr) (hi lo : Nat) (eid : Nat)
  | constant (v : Int) (eid : Nat)
  | mux (e0 e1 e2 : Expr) (eid : Nat)
  | unop (e : Expr) (eid : Nat)
  | binop (l r : Expr) (eid : Nat)
  | methodCallExpr (method : Expr) (eid : Nat)
  deriving DecidableEq, Repr

/-- `Expr` node id. -/
def Expr.eid : Expr → Nat
  | .literal i => i
  | .typeNameExpr i => i
  | .pathExpr _ i => i
  | .member _ _ i => i
  | .arrayIndex _ _ i => i
  | .sliceE _ _ _ i => i
  | .constant _ i => i
  | .mux _ _ _ i => i
  | .unop _ i => i
  | .binop _ _ i => i
  | .methodCallExpr _ i => i

/-- A function / action / control parameter. -/
structure Param where
  name : String
  direction : Direction
  deriving DecidableEq, Repr

mutual
/-- IR statements (`IR::Statement`); `sid` is node identity.  Assignment
and method-call statements also carry their source info (`srcInfo`),
which `RemoveUnused` propagates to replacement statements. -/
inductive Stmt where
  | assign (left right : Expr) (srcInfo : Nat) (sid : Nat)
  | ret (e : Option Expr) (sid : Nat)
  | exitS (sid : Nat)
  | methodCallStmt (srcInfo : Nat) (call : Expr) (sid : Nat)
  | block (components : List Stmt) (sid : Nat)
  | ifS (cond : Expr) (ifTrue : Stmt) (ifFalse : Option Stmt) (sid : Nat)
  | switchS (sel : Expr) (cases : List (Option Stmt)) (sid : Nat)
  | emptyS (sid : Nat)
  | declStmt (d : Decl)        -- a local declaration inside a block

/-- Declarations the visitor recurses into (`IR::P4Action`,
`IR::P4Table`, `IR::Function`). -/
inductive Decl where
  | action (name : String) (params : List Param) (body : Stmt) (did : Nat)
  | table (name : String) (keyExprs : List Expr) (actionExprs : List Expr) (did : Nat)
  | functionDecl (name : String) (returnTy : Ty) (params : List Param)
      (body : Stmt) (did : Nat)
end

/-- `Stmt` node id. -/
def Stmt.sid : Stmt → Nat
  | .assign _ _ _ i => i
  | .ret _ i => i
  | .exitS i => i
  | .methodCallStmt _ _ i => i
  | .block _ i => i
  | .ifS _ _ _ i => i
  | .switchS _ _ i => i
  | .emptyS i => i
  | .declStmt d => match d with
      | .action _ _ _ i => i
      | .table _ _ _ i => i
      | .functionDecl _ _ _ _ i => i

/-- `Decl` node id. -/
def Decl.did : Decl → Nat
  | .action _ _ _ i => i
  | .table _ _ _ i => i
  | .functionDecl _ _ _ _ i => i

/-- Nodes that can appear in a `ProgramPoint` path, in the visitor
context chain, and in the `HasUses` set. -/
inductive Node where
  | stmtN (s : Stmt)
  | exprN (e : Expr)
  | declN (d : Decl)
  | stateN (name : String) (nid : Nat)   -- `IR::ParserState`
  | parserN (nid : Nat)                  -- `IR::P4Parser`
  | afterN (nid : Nat)                   -- marker used by `ProgramPoint::after`

/-- Node identity, modelling C++ pointer identity. -/
def Node.nodeId : Node → Nat
  | .stmtN s => s.sid
  | .exprN e => e.eid
  | .declN d => d.did
  | .stateN _ i => i
  | .parserN i => i
  | .afterN i => i

/-- `ProgramPoint` (from `def_use.h`): a path of IR nodes augmented by the
call context.  The empty path is the *before-start* sentinel. -/
structure ProgramPoint where
  path : List Node

namespace ProgramPoint

/-- The before-start sentinel (`ProgramPoint::beforeStart`). -/
def beforeStart : ProgramPoint := ⟨[]⟩

/-- `ProgramPoint::isBeforeStart`. -/
def isBeforeStart (p : ProgramPoint) : Bool := p.path.isEmpty

/-- `ProgramPoint::last`: the last node of the path, `none` (null) for
the before-start sentinel. -/
def last (p : ProgramPoint) : Option Node := p.path.getLast?

/-- `ProgramPoint(context, node)`: extend a context by one node. -/
def snoc (p : ProgramPoint) (n : Node) : ProgramPoint := ⟨p.path ++ [n]⟩

/-- `ProgramPoint(node)`: a single-node point. -/
def single (n : Node) : ProgramPoint := ⟨[n]⟩

/-- Modelled from the spec: `ProgramPoint::after` (defined in
`def_use.h`, which is outside the analysed sources) produces the point
denoting completion of the last node; it only serves as a distinct key
into the definitions oracle, so it is modelled as appending a marker. -/
def after (p : ProgramPoint) : ProgramPoint := ⟨p.path ++ [.afterN 0]⟩

end ProgramPoint

/-- `ProgramPoints`: a set of program points. -/
abbrev ProgramPoints := List ProgramPoint

/-- `ProgramPoints::containsBeforeStart`. -/
def containsBeforeStart (ps : ProgramPoints) : Bool :=
  ps.any (fun p => p.isBeforeStart)

/-- Storage descriptor (`StorageLocation`): an identity and the declared
type, as consumed by `checkOutParameters`. -/
structure Storage where
  name : String
  ty : Ty
  deriving DecidableEq, Repr

/-- `LocationSet` terms, as built by the pass and consumed by the
reaching-definitions oracle: the empty set, whole-storage sets and the
projection operators. -/
inductive LocationSet where
  | empty
  | storage (name : String)
  | field (base : LocationSet) (f : String)
  | index (base : LocationSet) (i : Int)
  | arrayLastIndex (base : LocationSet)
  | removeHeaders (base : LocationSet)
  deriving DecidableEq, Repr

namespace LocationSet

/-- `LocationSet::getField`. -/
def getField (l : LocationSet) (f : String) : LocationSet := .field l f

/-- `StorageFactory::validFieldName`. -/
def validFieldName : String := "$valid"

/-- `LocationSet::getValidField`. -/
def getValidField (l : LocationSet) : LocationSet := .field l validFieldName

/-- `LocationSet::getIndex`. -/
def getIndex (l : LocationSet) (i : Int) : LocationSet := .index l i

/-- `LocationSet::getArrayLastIndex`. -/
def getArrayLastIndex (l : LocationSet) : LocationSet := .arrayLastIndex l

/-- `LocationSet::isEmpty`. -/
def isEmpty : LocationSet → Bool
  | .empty => true
  | _ => false

/-- `new LocationSet(storage)`. -/
def ofStorage (s : Storage) : LocationSet := .storage s.name

end LocationSet

/-- `StorageLocation::removeHeaders`, wrapped as a `LocationSet` query. -/
def Storage.removeHeadersLoc (s : Storage) : LocationSet :=
  .removeHeaders (.storage s.name)

/-- A `Definitions` lattice element as consumed through its interface:
`getPoints` and `isUnreachable`. -/
structure Definitions where
  getPoints : LocationSet → ProgramPoints
  unreachable : Bool

/-- `Definitions::isUnreachable`. -/
def Definitions.isUnreachable (d : Definitions) : Bool := d.unreachable

/-- Modelled from the spec: `Definitions::joinDefinitions` (defined in
`def_use.cpp`, outside the analysed sources).  The spec specifies a join
over two `Definitions`; reaching points join pointwise by union and a
joined state is unreachable only when both inputs are. -/
def Definitions.joinDefinitions (a b : Definitions) : Definitions :=
  { getPoints := fun ls => a.getPoints ls ++ b.getPoints ls,
    unreachable := a.unreachable && b.unreachable }

/-! ## HasUses and its SliceTracker -/

/-- `HasUses::SliceTracker`: the optionally active slice being written,
carried as its `(getH, getL)` bounds. -/
structure SliceTracker where
  tracked : Option (Nat × Nat)

/-- `SliceTracker::isActive`. -/
def SliceTracker.isActive (t : SliceTracker) : Bool := t.tracked.isSome

/-- `SliceTracker::overwritesPrevious`: the tracked slice covers the
previous slice bitwise. -/
def SliceTracker.overwritesPrevious (hi lo : Nat) (prevHi prevLo : Nat) : Bool :=
  prevHi ≤ hi && lo ≤ prevLo

/-- `SliceTracker::overwrites`: an inactive tracker skips nothing; a
before-start point is never skipped; otherwise the point is skipped
exactly when its last node is an assignment statement whose left-hand
side is a slice covered by the tracked slice. -/
def SliceTracker.overwrites (t : SliceTracker) (previous : ProgramPoint) : Bool :=
  match t.tracked with
  | none => false
  | some (hi, lo) =>
    if previous.isBeforeStart then false
    else match previous.last with
      | some (.stmtN (.assign left _ _ _)) =>
          match left with
          | .sliceE _ prevHi prevLo _ => SliceTracker.overwritesPrevious hi lo prevHi prevLo
          | _ => false
      | _ => false

/-- `HasUses`: the set of used nodes (by node identity) plus the
slice tracker. -/
structure HasUses where
  used : List Nat
  tracker : SliceTracker

/-- The loop of `HasUses::add`: for every point that the tracker does
not skip and whose `last` node is not null, insert that node's
identity. -/
def addPointsLoop (t : SliceTracker) : List Nat → List ProgramPoint → List Nat
  | acc, [] => acc
  | acc, e :: rest =>
      addPointsLoop t
        (if t.overwrites e then acc
         else match e.last with
          | some lastN => acc ++ [lastN.nodeId]
          | none => acc) rest

/-- `HasUses::add`: insert the `last` node of every point of `points`
that the tracker does not skip and that is not null. -/
def HasUses.add (hu : HasUses) (points : ProgramPoints) : HasUses :=
  { hu with used := addPointsLoop hu.tracker hu.used points }

/-- `HasUses::hasUses`: membership by node identity. -/
def HasUses.hasUsesB (hu : HasUses) (n : Node) : Bool := hu.used.contains n.nodeId

/-- `HasUses::watchForOverwrites`; activating an already active tracker
is a `BUG_CHECK` failure. -/
def HasUses.watchForOverwrites (hu : HasUses) (hi lo : Nat) : Except String HasUses :=
  if hu.tracker.isActive then
    .error "Call to SliceTracker, but it is already active"
  else .ok { hu with tracker := ⟨some (hi, lo)⟩ }

/-- `HasUses::doneWatching`. -/
def HasUses.doneWatching (hu : HasUses) : HasUses := { hu with tracker := ⟨none⟩ }

/-! ## Diagnostics and the visitor state -/

/-- The user-observable diagnostics the pass emits, in emission order. -/
inductive Diagnostic where
  | warnUninitializedOutParam (param : String) (blockName : String)
      -- out parameter may be uninitialized when block terminates
  | warnUninitializedUse (message : String) (e : Expr)
      -- WARN_UNINITIALIZED_USE with the chosen message text
  | warnUninitialized (e : Expr)
      -- WARN_UNINITIALIZED: reading uninitialized value
  | errInsufficientReturn (functionName : String)
      -- ERR_INSUFFICIENT: function does not return a value on all paths
  deriving DecidableEq, Repr

/-- The mutable state of a `FindUninitialized` visitor instance, plus the
ambient diagnostics sink. -/
structure FUState where
  context : ProgramPoint
  lhs : Bool
  currentPoint : ProgramPoint
  readLocations : List (Expr × LocationSet)
  hasUses : HasUses
  unreachable : Bool
  virtualMethod : Bool
  diags : List Diagnostic

/-- `MethodInstance::resolve` outcomes, at the granularity the pass
dispatches on. -/
inductive MethodKind where
  | builtin (name : String) (appliedTo : Expr)
  | actionCall (action : Decl)
  | applyMethod (isTableApply : Bool) (table : Decl)
  | externMethod (mayCall : List Decl)
  | otherMethod

/-- The external collaborators, at the interfaces the pass consumes. -/
structure Env where
  /-- `TypeMap::getType` (with `fail_if_missing`, assumed resolved). -/
  typeOf : Expr → Ty
  /-- `TypeMap::typeIsEmpty`. -/
  typeIsEmpty : Ty → Bool
  /-- `ReferenceMap::getDeclaration` composed with
  `StorageMap::getStorage`, keyed by the declaration or parameter name;
  `none` models a null storage. -/
  storageOf : String → Option Storage
  /-- `AllDefinitions::getDefinitions (point, true)`. -/
  defsAt : ProgramPoint → Definitions
  /-- `TableApplySolver::isHit`. -/
  isHit : Expr → Bool
  /-- `TableApplySolver::isActionRun`. -/
  isActionRun : Expr → Bool
  /-- `MethodInstance::resolve`. -/
  resolve : Expr → MethodKind
  /-- `mi->substitution.getParametersInArgumentOrder()` paired through
  `substitution.lookup`. -/
  substitution : Expr → List (Param × Expr)

/-! ## Read-location bookkeeping and registerUses -/

/-- Lookup in the `readLocations` map (`::get(readLocations, e)`). -/
def lookupReads : List (Expr × LocationSet) → Expr → Option LocationSet
  | [], _ => none
  | (k, v) :: rest, e => if k = e then some v else lookupReads rest e

/-- `FindUninitialized::reads`: record that `expression` reads `loc`
(erase then emplace); reaching it in unreachable code is a `BUG_CHECK`
failure. -/
def readsRec (st : FUState) (expression : Expr) (loc : LocationSet) :
    Except String FUState :=
  if st.unreachable then
    .error "reached an unreachable expression in FindUninitialized"
  else
    .ok { st with readLocations :=
      (expression, loc) :: st.readLocations.filter (fun q => q.1 ≠ expression) }

/-- `FindUninitialized::getReads` with `nonNull = true`: a missing
location set is a `BUG_CHECK` failure. -/
def getReadsNonNull (st : FUState) (expression : Expr) : Except String LocationSet :=
  match lookupReads st.readLocations expression with
  | some l => .ok l
  | none => .error "no locations known for expression"

/-- `FindUninitialized::isFinalRead`: `ctx` is the node chain of strict
ancestors, nearest first (`getContext()`).  An expression that is the
child of a `Member`, or the left child of an `ArrayIndex`, is not a
final read. -/
def isFinalRead (ctx : List Node) (expression : Expr) : Bool :=
  match ctx with
  | [] => true
  | parent :: _ =>
    match parent with
    | .exprN (.member _ _ _) => false
    | .exprN (.arrayIndex left _ _) => !(left = expression)
    | _ => true

/-- `findContext<IR::AssignmentStatement>()` over the ancestor chain. -/
def findContextAssign : List Node → Bool
  | [] => false
  | .stmtN (.assign _ _ _ _) :: _ => true
  | _ :: rest => findContextAssign rest

/-- `FindUninitialized::registerUses`: record, in `HasUses`, the program
points whose writes reach the read set of `expression`, and warn about
possibly uninitialized reads. -/
def registerUses (env : Env) (ctx : List Node) (st : FUState)
    (expression : Expr) (reportUninitialized : Bool) : FUState :=
  if !isFinalRead ctx expression then st
  else
    let currentDefinitions := env.defsAt st.currentPoint
    if currentDefinitions.isUnreachable then st
    else
      match lookupReads st.readLocations expression with
      | none => st
      | some read =>
        if read.isEmpty then st
        else
          let points := currentDefinitions.getPoints read
          let st :=
            if reportUninitialized && !st.lhs && containsBeforeStart points then
              let message :=
                if env.typeOf expression = Ty.base then "may be uninitialized"
                else "may not be completely initialized"
              { st with diags := st.diags ++ [.warnUninitializedUse message expression] }
            else st
          { st with hasUses := st.hasUses.add points }

/-! ## checkOutParameters -/

/-- The body of the `checkOutParameters` loop for a single parameter. -/
def checkOutParam1 (env : Env) (blockName : String) (defs : Definitions)
    (st : FUState) (p : Param) : FUState :=
  if p.direction = Direction.dirOut || p.direction = Direction.dirInOut then
    match env.storageOf p.name with
    | none => st
    | some storage =>
      let loc := LocationSet.ofStorage storage
      let points := defs.getPoints loc
      let st := { st with hasUses := st.hasUses.add points }
      if env.typeIsEmpty storage.ty then st
      else
        let loc := storage.removeHeadersLoc
        let points := defs.getPoints loc
        if containsBeforeStart points then
          { st with diags := st.diags ++ [.warnUninitializedOutParam p.name blockName] }
        else st
  else st

/-- `FindUninitialized::checkOutParameters`. -/
def checkOutParameters (env : Env) (blockName : String) (params : List Param)
    (defs : Definitions) (st : FUState) : FUState :=
  params.foldl (checkOutParam1 env blockName defs) st

/-! ## checkHeaderFieldWrite -/

/-- `FindUninitialized::checkHeaderFieldWrite`: walk the left-hand side
structure of an assignment to derive the written `LocationSet`; when a
walked parent has header type and the original `expr` is a strict
sub-expression of it, record a read of the header's valid field against
`expr`.  `ctx` is the ancestor chain of the enclosing assignment.  An
unexpected LHS shape is a `BUG` failure. -/
def checkHeaderFieldWrite (env : Env) (ctx : List Node) (st : FUState)
    (expr parent : Expr) : Except String (FUState × LocationSet) := do
  let (st1, loc) ←
    (match parent with
      | .member pe m _ => do
          let (stA, locA) ← checkHeaderFieldWrite env ctx st expr pe
          .ok (stA, locA.getField m)
      | .arrayIndex l r _ => do
          let (stA, locA) ← checkHeaderFieldWrite env ctx st expr l
          (match r with
            | .constant v _ => .ok (stA, locA.getIndex v)
            | _ => .ok (stA, locA))   -- else let loc be the whole array
      | .pathExpr name _ =>
          (match env.storageOf name with
            | some s => .ok (st, LocationSet.ofStorage s)
            | none => .ok (st, LocationSet.empty))
      | .sliceE e0 _ _ _ => checkHeaderFieldWrite env ctx st expr e0
      | _ => .error "unexpected expression on LHS" :
        Except String (FUState × LocationSet))
  if env.typeOf parent = Ty.header then
    if expr ≠ parent then do
      -- writing into a header's field also reads the header's valid bit
      let loc2 := loc.getValidField
      let st2 ← readsRec st1 expr loc2
      .ok (registerUses env ctx st2 expr true, loc2)
    else .ok (st1, loc)
  else .ok (st1, loc)

/-! ## The FindUninitialized traversal

All visit functions are fuel-indexed: p4 programs have no recursion, so
any terminating run of the C++ visitor is reproduced with enough fuel;
running out of fuel is an explicit failure, never a silent result. -/

/-- `is<IR::TypeNameExpression>`. -/
def Expr.isTypeNameE : Expr → Bool
  | .typeNameExpr _ => true
  | _ => false

/-- The part of `preorder(IR::Member)` that runs after the base
expression has been visited (everything in the preorder below
`visit(expression->expr)`); `st1` is the state after that visit. -/
def memberRest (env : Env) (ctx : List Node) (st1 : FUState)
    (baseE : Expr) (m : String) (eid : Nat) : Except String FUState :=
  let e := Expr.member baseE m eid
  if baseE.isTypeNameE then readsRec st1 e .empty   -- this is a constant
  else if env.isHit e || env.isActionRun e then .ok st1
  else if env.typeOf e = Ty.method then .ok st1   -- dealt within the parent
  else do
    let storage ← getReadsNonNull st1 baseE
    let basetype := env.typeOf baseE
    if basetype = Ty.stack ∧ (m = "next" ∨ m = "last") then do
      let st2 ← readsRec st1 e storage
      let st3 := registerUses env ctx st2 e false
      if !st3.lhs && m == "next" then
        .ok { st3 with diags := st3.diags ++ [.warnUninitialized e] }
      else .ok st3
    else if basetype = Ty.stack ∧ m = "lastIndex" then do
      let st2 ← readsRec st1 e storage.getArrayLastIndex
      .ok (registerUses env ctx st2 e false)
    else do
      let st2 ← readsRec st1 e (storage.getField m)
      .ok (registerUses env ctx st2 e true)

/-- `FindUninitialized::otherExpression` (the `Mux`, unary and binary
postorders): such an operation may not appear on the LHS (`BUG_CHECK`);
its own read set is empty. -/
def otherExpression (env : Env) (ctx : List Node) (st : FUState) (e : Expr) :
    Except String FUState := do
  if st.lhs then .error "unexpected operation on LHS"
  else do
    let st1 ← readsRec st e .empty
    .ok (registerUses env ctx st1 e true)

/-- A parser state (`IR::ParserState`). -/
structure ParserStateIR where
  name : String
  components : List Stmt
  selectExpression : Option Expr
  psid : Nat

/-- A parser (`IR::P4Parser`): local instance initializers, states, the
apply parameters, and the identities of the accept and reject states. -/
structure ParserIR where
  name : String
  locals : List (Option Stmt)
  states : List ParserStateIR
  applyParams : List Param
  acceptId : Nat
  rejectId : Nat
  pid : Nat

mutual

/-- `FindUninitialized` expression preorders.  `ctx` is the chain of
strict ancestors of the visited expression, nearest first. -/
def visitExpr (env : Env) : Nat → List Node → FUState → Expr → Except String FUState
  | 0, _, _, _ => .error "out of fuel"
  | fuel+1, ctx, st, e =>
    match e with
    | .literal _ => readsRec st e .empty
    | .constant _ _ => readsRec st e .empty
    | .typeNameExpr _ => readsRec st e .empty
    | .pathExpr name _ =>
      if st.lhs then readsRec st e .empty
      else do
        let result :=
          match env.storageOf name with
          | some storage => LocationSet.ofStorage storage
          | none => LocationSet.empty
        let st1 ← readsRec st e result
        .ok (registerUses env ctx st1 e true)
    | .member baseE m eid => do
      let st1 ← visitExpr env fuel (.exprN e :: ctx) st baseE
      memberRest env ctx st1 baseE m eid
    | .sliceE e0 hi lo _ => do
      -- when on the LHS of an enclosing assignment, track this slice
      let st1 ←
        if findContextAssign ctx && st.lhs then do
          let hu ← st.hasUses.watchForOverwrites hi lo
          .ok { st with hasUses := hu }
        else .ok st
      let save := st1.lhs
      let st2 := { st1 with lhs := false }  -- slices on the LHS also read the data
      let st3 ← visitExpr env fuel (.exprN e :: ctx) st2 e0
      let storage ← getReadsNonNull st3 e0
      let st4 ← readsRec st3 e storage
      let st5 := registerUses env ctx st4 e true
      let st6 := { st5 with lhs := save }
      .ok { st6 with hasUses := st6.hasUses.doneWatching }
    | .mux e0 e1 e2 _ => do
      let st1 ← visitExpr env fuel (.exprN e :: ctx) st e0
      let st2 ← visitExpr env fuel (.exprN e :: ctx) st1 e1
      let st3 ← visitExpr env fuel (.exprN e :: ctx) st2 e2
      otherExpression env ctx st3 e
    | .unop e0 _ => do
      let st1 ← visitExpr env fuel (.exprN e :: ctx) st e0
      otherExpression env ctx st1 e
    | .binop l r _ => do
      let st1 ← visitExpr env fuel (.exprN e :: ctx) st l
      let st2 ← visitExpr env fuel (.exprN e :: ctx) st1 r
      otherExpression env ctx st2 e
    | .arrayIndex left right _ => do
      let st' ←
        (match right with
          | .constant v _ =>
            if st.lhs then readsRec st e .empty
            else do
              let st1 ← visitExpr env fuel (.exprN e :: ctx) st left
              let storage ← getReadsNonNull st1 left
              readsRec st1 e (storage.getIndex v)
          | _ => do
            -- a write with an unknown index is a read/write of the whole array
            let save := st.lhs
            let st1 := { st with lhs := false }
            let st2 ← visitExpr env fuel (.exprN e :: ctx) st1 right
            let st3 ← visitExpr env fuel (.exprN e :: ctx) st2 left
            let storage ← getReadsNonNull st3 left
            let st4 := { st3 with lhs := save }
            readsRec st4 e storage : Except String FUState)
      .ok (registerUses env ctx st' e true)
    | .methodCallExpr method _ => do
      let st1 ← visitExpr env fuel (.exprN e :: ctx) st method
      match env.resolve e with
      | .builtin name appliedTo =>
        if name = "push_front" ∨ name = "pop_front" then do
          let base ← getReadsNonNull st1 appliedTo
          let st2 ← readsRec st1 e base    -- reads all array fields
          .ok (registerUses env ctx st2 e false)
        else if name = "isValid" then do
          let base ← getReadsNonNull st1 appliedTo
          let st2 ← readsRec st1 e (base.getField LocationSet.validFieldName)
          .ok (registerUses env ctx st2 e true)
        else visitCallRest env fuel ctx st1 e
      | _ => visitCallRest env fuel ctx st1 e

/-- The general-call tail of `preorder(IR::MethodCallExpression)`:
copy-in visits, symbolic calls into callees, copy-out visits. -/
def visitCallRest (env : Env) : Nat → List Node → FUState → Expr → Except String FUState
  | 0, _, _, _ => .error "out of fuel"
  | fuel+1, ctx, st, e => do
    -- the effect of copy-in: in arguments are read
    let st2 ← visitInArgs env fuel (.exprN e :: ctx) st (env.substitution e)
    let callees : List Decl :=
      match env.resolve e with
      | .actionCall a => [a]
      | .applyMethod isTableApply tbl => if isTableApply then [tbl] else []
      | .externMethod l => l
      | _ => []
    let st3 ←
      if callees.isEmpty then .ok st2
      else do
        -- a child FindUninitialized whose context is the call site,
        -- sharing the definitions, the HasUses set and the sink
        let pt := st2.context.snoc (.exprN e)
        let childInit : FUState :=
          { context := pt, lhs := false, currentPoint := pt, readLocations := [],
            hasUses := st2.hasUses, unreachable := false, virtualMethod := false,
            diags := st2.diags }
        let child ← visitCallees env fuel childInit callees
        .ok { st2 with hasUses := child.hasUses, diags := child.diags }
    let st4 ← visitOutArgs env fuel (.exprN e :: ctx) st3 (env.substitution e)
    readsRec st4 e .empty

/-- Copy-in: visit the argument of every parameter that is not
direction `out`. -/
def visitInArgs (env : Env) : Nat → List Node → FUState →
    List (Param × Expr) → Except String FUState
  | 0, _, _, _ => .error "out of fuel"
  | _+1, _, st, [] => .ok st
  | fuel+1, ctx, st, (p, arg) :: rest => do
    let st1 ←
      if p.direction ≠ Direction.dirOut then visitExpr env fuel ctx st arg
      else .ok st
    visitInArgs env fuel ctx st1 rest

/-- Copy-out: visit the argument of every `out`/`inout` parameter with
`lhs` set. -/
def visitOutArgs (env : Env) : Nat → List Node → FUState →
    List (Param × Expr) → Except String FUState
  | 0, _, _, _ => .error "out of fuel"
  | _+1, _, st, [] => .ok st
  | fuel+1, ctx, st, (p, arg) :: rest => do
    let st1 ←
      if p.direction = Direction.dirOut ∨ p.direction = Direction.dirInOut then do
        let save := st.lhs
        let stA ← visitExpr env fuel ctx { st with lhs := true } arg
        .ok { stA with lhs := save }
      else .ok st
    visitOutArgs env fuel ctx st1 rest

/-- Apply the child visitor to each callee in turn; each `apply` runs
`init_apply`, which clears `unreachable`. -/
def visitCallees (env : Env) : Nat → FUState → List Decl → Except String FUState
  | 0, _, _ => .error "out of fuel"
  | _+1, st, [] => .ok st
  | fuel+1, st, c :: rest => do
    let st1 ← visitDecl env fuel [] { st with unreachable := false } c
    visitCallees env fuel st1 rest

/-- `FindUninitialized` statement preorders. -/
def visitStmt (env : Env) : Nat → List Node → FUState → Stmt → Except String FUState
  | 0, _, _, _ => .error "out of fuel"
  | fuel+1, ctx, st, s =>
    match s with
    | .assign left right _ _ => do
      let st' ←
        if !st.unreachable then do
          let st1 ← visitExpr env fuel (.stmtN s :: ctx) { st with lhs := true } left
          let (st2, _) ← checkHeaderFieldWrite env ctx st1 left left
          visitExpr env fuel (.stmtN s :: ctx) { st2 with lhs := false } right
        else .ok st
      .ok { st' with currentPoint := st'.context.snoc (.stmtN s) }
    | .ret e _ => do
      let st' ←
        (match e with
          | some ex =>
            if !st.unreachable then visitExpr env fuel (.stmtN s :: ctx) st ex
            else .ok st
          | none => .ok st)
      .ok { st' with unreachable := true,
                     currentPoint := st'.context.snoc (.stmtN s) }
    | .exitS _ =>
      .ok { st with unreachable := true,
                    currentPoint := st.context.snoc (.stmtN s) }
    | .methodCallStmt _ call _ => do
      let st' ←
        if !st.unreachable then visitExpr env fuel (.stmtN s :: ctx) st call
        else .ok st
      .ok { st' with currentPoint := st'.context.snoc (.stmtN s) }
    | .block components _ => do
      let st' ←
        if !st.unreachable then visitStmts env fuel (.stmtN s :: ctx) st components
        else .ok st
      .ok { st' with currentPoint := st'.context.snoc (.stmtN s) }
    | .ifS cond ifTrue ifFalse _ => do
      let st' ←
        if !st.unreachable then do
          let st1 ← visitExpr env fuel (.stmtN s :: ctx) st cond
          let st2 := { st1 with currentPoint := st1.context.snoc (.exprN cond) }
          let saveCurrent := st2.currentPoint
          let saveUnreachable := st2.unreachable
          let st3 ← visitStmt env fuel (.stmtN s :: ctx) st2 ifTrue
          let unreachableAfterThen := st3.unreachable
          let st4 := { st3 with unreachable := saveUnreachable }
          let st5 ←
            (match ifFalse with
              | some fs =>
                visitStmt env fuel (.stmtN s :: ctx)
                  { st4 with currentPoint := saveCurrent } fs
              | none => .ok st4)
          .ok { st5 with unreachable := unreachableAfterThen && st5.unreachable }
        else .ok st
      .ok { st' with currentPoint := st'.context.snoc (.stmtN s) }
    | .switchS sel cases _ => do
      let st' ←
        if !st.unreachable then do
          let st1 ← visitExpr env fuel (.stmtN s :: ctx) st sel
          let st2 := { st1 with currentPoint := st1.context.snoc (.exprN sel) }
          let (st3, finalUnreachable) ←
            visitSwitchCases env fuel (.stmtN s :: ctx) st2 cases
              st2.currentPoint st2.unreachable true
          .ok { st3 with unreachable := finalUnreachable }
        else .ok st
      .ok { st' with currentPoint := st'.context.snoc (.stmtN s) }
    | .emptyS _ => .ok st
    | .declStmt d => visitDecl env fuel ctx st d

/-- Sequentially visit block components. -/
def visitStmts (env : Env) : Nat → List Node → FUState → List Stmt →
    Except String FUState
  | 0, _, _, _ => .error "out of fuel"
  | _+1, _, st, [] => .ok st
  | fuel+1, ctx, st, c :: rest => do
    let st1 ← visitStmt env fuel ctx st c
    visitStmts env fuel ctx st1 rest

/-- The per-case loop of `preorder(IR::SwitchStatement)`; cases without a
body are skipped; returns the accumulated `finalUnreachable`. -/
def visitSwitchCases (env : Env) : Nat → List Node → FUState → List (Option Stmt) →
    ProgramPoint → Bool → Bool → Except String (FUState × Bool)
  | 0, _, _, _, _, _, _ => .error "out of fuel"
  | _+1, _, st, [], _, _, finalUnreachable => .ok (st, finalUnreachable)
  | fuel+1, ctx, st, c :: rest, saveCurrent, saveUnreachable, finalUnreachable =>
    match c with
    | none => visitSwitchCases env fuel ctx st rest saveCurrent saveUnreachable
        finalUnreachable
    | some body => do
      let stA := { st with currentPoint := saveCurrent, unreachable := saveUnreachable }
      let stB ← visitStmt env fuel ctx stA body
      visitSwitchCases env fuel ctx stB rest saveCurrent saveUnreachable
        (finalUnreachable && stB.unreachable)

/-- `FindUninitialized` declaration preorders (`P4Action`, `P4Table`,
`Function`). -/
def visitDecl (env : Env) : Nat → List Node → FUState → Decl → Except String FUState
  | 0, _, _, _ => .error "out of fuel"
  | fuel+1, ctx, st, d =>
    match d with
    | .action name params body _ => do
      let st1 := { st with unreachable := false,
                           currentPoint := st.context.snoc (.declN d) }
      let st2 ← visitStmt env fuel (.declN d :: ctx) st1 body
      .ok (checkOutParameters env name params (env.defsAt st2.currentPoint) st2)
    | .table _ keyExprs actionExprs _ => do
      let savePoint := st.context.snoc (.declN d)
      let st1 := { st with currentPoint := savePoint }
      let st2 ← visitKey env fuel (.declN d :: ctx) st1 keyExprs
      visitTableActions env fuel (.declN d :: ctx) st2 actionExprs savePoint
    | .functionDecl name returnTy params body _ => do
      let st0 :=
        if st.virtualMethod then
          { st with context := ProgramPoint.beforeStart, unreachable := false }
        else st
      let point := st0.context.snoc (.declN d)
      let st1 := { st0 with currentPoint := point }
      let st2 ← visitStmt env fuel (.declN d :: ctx) st1 body
      let st3 :=
        if returnTy ≠ Ty.voidTy then
          -- the post-body definitions must contain "unreachable",
          -- otherwise some path falls off the end without a return
          if !(env.defsAt st2.currentPoint).isUnreachable then
            { st2 with diags := st2.diags ++ [.errInsufficientReturn name] }
          else st2
        else st2
      let st4 := { st3 with currentPoint := point.after }
      .ok (checkOutParameters env name params (env.defsAt st4.currentPoint) st4)

/-- Visit the expressions of a table key. -/
def visitKey (env : Env) : Nat → List Node → FUState → List Expr →
    Except String FUState
  | 0, _, _, _ => .error "out of fuel"
  | _+1, _, st, [] => .ok st
  | fuel+1, ctx, st, k :: rest => do
    let st1 ← visitExpr env fuel ctx st k
    visitKey env fuel ctx st1 rest

/-- The action-list loop of `preorder(IR::P4Table)`: every entry must be
a method call expression (`BUG_CHECK`), and the current point is restored
after each inter-procedural visit. -/
def visitTableActions (env : Env) : Nat → List Node → FUState → List Expr →
    ProgramPoint → Except String FUState
  | 0, _, _, _, _ => .error "out of fuel"
  | _+1, _, st, [], _ => .ok st
  | fuel+1, ctx, st, a :: rest, savePoint =>
    match a with
    | .methodCallExpr _ _ => do
      let st1 ← visitExpr env fuel ctx st a
      visitTableActions env fuel ctx { st1 with currentPoint := savePoint } rest savePoint
    | _ => .error "unexpected entry in action list"

end

/-- `preorder(IR::ParserState)`: set the context and the current point
to the state, visit components then the select expression, and clear the
context. -/
def visitParserState (env : Env) (fuel : Nat) (st : FUState) (ps : ParserStateIR) :
    Except String FUState := do
  let stateNode := Node.stateN ps.name ps.psid
  let st1 := { st with context := ProgramPoint.single stateNode,
                       currentPoint := ProgramPoint.single stateNode }
  let st2 ← visitStmts env fuel [stateNode] st1 ps.components
  let st3 ←
    match ps.selectExpression with
    | some e => visitExpr env fuel [stateNode] st2 e
    | none => .ok st2
  .ok { st3 with context := ProgramPoint.beforeStart }

/-- Visit all parser states in order. -/
def visitParserStates (env : Env) (fuel : Nat) (st : FUState) :
    List ParserStateIR → Except String FUState
  | [] => .ok st
  | ps :: rest => do
    let st1 ← visitParserState env fuel st ps
    visitParserStates env fuel st1 rest

/-- The loop body of `visitVirtualMethods`: visit each local instance
initializer with the `virtualMethod` flag set. -/
def visitVirtualMethodsLoop (env : Env) (fuel : Nat) (ctx : List Node)
    (st : FUState) : List (Option Stmt) → Except String FUState
  | [] => .ok st
  | none :: rest => visitVirtualMethodsLoop env fuel ctx st rest
  | some ini :: rest => do
    let st1 ← visitStmt env fuel ctx { st with virtualMethod := true } ini
    visitVirtualMethodsLoop env fuel ctx { st1 with virtualMethod := false } rest

/-- `FindUninitialized::visitVirtualMethods`: proactively visit the
initializers of local instances, saving and restoring the context. -/
def visitVirtualMethods (env : Env) (fuel : Nat) (ctx : List Node)
    (st : FUState) (locals : List (Option Stmt)) : Except String FUState := do
  let saveContext := st.context
  let st1 ← visitVirtualMethodsLoop env fuel ctx st locals
  .ok { st1 with context := saveContext }

/-- `preorder(IR::P4Parser)`: visit virtual methods and all states, then
check the apply out parameters against the join of the definitions
reaching the accept state and the definitions reaching the reject
state. -/
def visitParser (env : Env) (fuel : Nat) (st : FUState) (parser : ParserIR) :
    Except String FUState := do
  let st1 := { st with currentPoint := ProgramPoint.single (.parserN parser.pid) }
  let st2 ← visitVirtualMethods env fuel [.parserN parser.pid] st1 parser.locals
  let st3 ← visitParserStates env fuel st2 parser.states
  let st4 := { st3 with unreachable := false }
  let acceptdefs := env.defsAt (ProgramPoint.single (.stateN "accept" parser.acceptId))
  let rejectdefs := env.defsAt (ProgramPoint.single (.stateN "reject" parser.rejectId))
  let outputDefs := acceptdefs.joinDefinitions rejectdefs
  .ok (checkOutParameters env parser.name parser.applyParams outputDefs st4)

/-- The state of a `FindUninitialized` pass instance at `init_apply`:
empty context and current point, `lhs` clear, fresh read locations, the
shared `HasUses`, and `unreachable` cleared. -/
def initState (hu : HasUses) : FUState :=
  { context := ProgramPoint.beforeStart, lhs := false,
    currentPoint := ProgramPoint.beforeStart, readLocations := [],
    hasUses := hu, unreachable := false, virtualMethod := false, diags := [] }

/-! ## RemoveUnused -/

/-- The result of applying the external `SideEffects` visitor to an
expression: the (unique expected) node with a side effect and the
side-effect count. -/
structure SideEffectsResult where
  nodeWithSideEffect : Option Expr
  sideEffectCount : Nat

/-- The collaborators `RemoveUnused` consumes. -/
structure RUEnv where
  /-- Applying the `SideEffects` visitor to an expression. -/
  sideEffectsOf : Expr → SideEffectsResult
  /-- `SideEffects::hasSideEffect`. -/
  hasSideEffect : Expr → Bool

/-- Whether an expression is an `IR::MethodCallExpression`. -/
def Expr.isMethodCallExpr : Expr → Bool
  | .methodCallExpr _ _ => true
  | _ => false

/-- `RemoveUnused::postorder(IR::AssignmentStatement)`.  `orig` is
`getOriginal()`; `left`, `right`, `srcInfo`, `sid` are the components of
the (possibly child-rewritten) current statement.  Newly created
replacement nodes carry the fresh identity `0`.  `BUG_CHECK` failures are
explicit errors. -/
def removeUnusedAssign (env : RUEnv) (hu : HasUses) (orig : Stmt)
    (left right : Expr) (srcInfo : Nat) (sid : Nat) : Except String Stmt :=
  if !(hu.hasUsesB (.stmtN orig)) then
    let se := env.sideEffectsOf right
    match se.nodeWithSideEffect with
    | some n =>
      -- at this point there can't be more than 1 method call per statement
      if se.sideEffectCount ≠ 1 then .error "too many side-effects in one expression"
      else if !n.isMethodCallExpr then .error "expected method call"
      else .ok (Stmt.methodCallStmt srcInfo n 0)
    | none => .ok (Stmt.emptyS 0)
  else .ok (Stmt.assign left right srcInfo sid)

/-- `RemoveUnused::postorder(IR::MethodCallStatement)`. -/
def removeUnusedMCS (env : RUEnv) (hu : HasUses) (orig : Stmt)
    (call : Expr) (srcInfo : Nat) (sid : Nat) : Stmt :=
  if !(hu.hasUsesB (.stmtN orig)) then
    if env.hasSideEffect call then Stmt.methodCallStmt srcInfo call sid
    else Stmt.emptyS 0
  else Stmt.methodCallStmt srcInfo call sid

/-! ## Helper lemmas -/

/-- `registerUses` only touches the diagnostics and the `HasUses` set;
every other state component is preserved. -/
theorem registerUses_preserves (env : Env) (ctx : List Node) (st : FUState)
    (e : Expr) (r : Bool) :
    (registerUses env ctx st e r).readLocations = st.readLocations
    ∧ (registerUses env ctx st e r).lhs = st.lhs
    ∧ (registerUses env ctx st e r).unreachable = st.unreachable
    ∧ (registerUses env ctx st e r).context = st.context
    ∧ (registerUses env ctx st e r).currentPoint = st.currentPoint
    ∧ (registerUses env ctx st e r).virtualMethod = st.virtualMethod := by
  by_cases h1 : (!isFinalRead ctx e) = true
  · simp [registerUses, h1]
  · rcases hl : lookupReads st.readLocations e with _ | read
    · simp [registerUses, h1, hl]
    · by_cases h2 : (env.defsAt st.currentPoint).isUnreachable = true
      · simp [registerUses, h1, h2, hl]
      · by_cases h3 : read.isEmpty = true
        · simp [registerUses, h1, h2, hl, h3]
        · by_cases h4 : (r && !st.lhs
              && containsBeforeStart ((env.defsAt st.currentPoint).getPoints read)) = true
          · simp [registerUses, h1, h2, hl, h3, h4]
          · simp [registerUses, h1, h2, hl, h3, h4]

/-- With reporting suppressed, `registerUses` emits no diagnostic. -/
theorem registerUses_false_diags (env : Env) (ctx : List Node) (st : FUState)
    (e : Expr) :
    (registerUses env ctx st e false).diags = st.diags := by
  by_cases h1 : (!isFinalRead ctx e) = true
  · simp [registerUses, h1]
  · rcases hl : lookupReads st.readLocations e with _ | read
    · simp [registerUses, h1, hl]
    · by_cases h2 : (env.defsAt st.currentPoint).isUnreachable = true
      · simp [registerUses, h1, h2, hl]
      · by_cases h3 : read.isEmpty = true
        · simp [registerUses, h1, h2, hl, h3]
        · simp [registerUses, h1, h2, hl, h3]

/-! ## Concrete collaborators used by witnesses -/

/-- A default environment for concrete runs: every declaration has
base-typed storage named after itself, no type is empty, the
definitions oracle returns no reaching points, and no expression is a
table-apply selector or resolvable call. -/
def envDefault : Env :=
  { typeOf := fun _ => Ty.base,
    typeIsEmpty := fun _ => false,
    storageOf := fun n => some ⟨n, Ty.base⟩,
    defsAt := fun _ => ⟨fun _ => [], false⟩,
    isHit := fun _ => false,
    isActionRun := fun _ => false,
    resolve := fun _ => MethodKind.otherMethod,
    substitution := fun _ => [] }

/-- An empty `HasUses` set with an inactive tracker. -/
def huEmpty : HasUses := ⟨[], ⟨none⟩⟩

/-- A side-effect oracle that finds no side effects anywhere. -/
def ruEnvPure : RUEnv := ⟨fun _ => ⟨none, 0⟩, fun _ => false⟩

/-! ## C1 -/

/-- C1: for an `AssignmentStatement` whose original node is not in
`HasUses`, `RemoveUnused` replaces it: with no side-effecting node in
the RHS it becomes an empty statement; with a side-effecting node there
must be exactly one and it must be a method-call expression (violating
either is an internal invariant failure), and the statement becomes a
bare method-call statement carrying that call and the statement's source
info.  An assignment whose original is in `HasUses` is returned
unchanged. -/
theorem C1_removeUnused_assign (env : RUEnv) (hu : HasUses) (orig : Stmt)
    (left right : Expr) (srcInfo sid : Nat) :
    (hu.hasUsesB (.stmtN orig) = true →
      removeUnusedAssign env hu orig left right srcInfo sid
        = .ok (Stmt.assign left right srcInfo sid))
    ∧ (hu.hasUsesB (.stmtN orig) = false →
        ((env.sideEffectsOf right).nodeWithSideEffect = none →
          removeUnusedAssign env hu orig left right srcInfo sid
            = .ok (Stmt.emptyS 0))
        ∧ (∀ n, (env.sideEffectsOf right).nodeWithSideEffect = some n →
            ((env.sideEffectsOf right).sideEffectCount = 1 ∧ n.isMethodCallExpr = true →
              removeUnusedAssign env hu orig left right srcInfo sid
                = .ok (Stmt.methodCallStmt srcInfo n 0))
            ∧ (¬((env.sideEffectsOf right).sideEffectCount = 1
                  ∧ n.isMethodCallExpr = true) →
              ∃ msg, removeUnusedAssign env hu orig left right srcInfo sid
                = .error msg))) := by
  refine ⟨fun hmem => ?_, fun hmem => ⟨fun hse => ?_, fun n hse => ⟨fun hok => ?_, fun hbad => ?_⟩⟩⟩
  · simp [removeUnusedAssign, hmem]
  · simp [removeUnusedAssign, hmem, hse]
  · simp [removeUnusedAssign, hmem, hse, hok.1, hok.2]
  · rcases Decidable.not_and_iff_or_not.mp hbad with hc | hm
    · exact ⟨"too many side-effects in one expression",
        by simp [removeUnusedAssign, hmem, hse, hc]⟩
    · by_cases hc : (env.sideEffectsOf right).sideEffectCount = 1
      · exact ⟨"expected method call",
          by simp [removeUnusedAssign, hmem, hse, hc, hm]⟩
      · exact ⟨"too many side-effects in one expression",
          by simp [removeUnusedAssign, hmem, hse, hc]⟩

/-- Witness for C1: a dead assignment with a pure RHS becomes an empty
statement. -/
theorem C1_removeUnused_assign_witness :
    removeUnusedAssign ruEnvPure huEmpty
      (Stmt.assign (.pathExpr "a" 1) (.constant 1 2) 50 3)
      (.pathExpr "a" 1) (.constant 1 2) 50 3
      = .ok (Stmt.emptyS 0) :=
  ((C1_removeUnused_assign ruEnvPure huEmpty
      (Stmt.assign (.pathExpr "a" 1) (.constant 1 2) 50 3)
      (.pathExpr "a" 1) (.constant 1 2) 50 3).2 rfl).1 rfl

/-! ## C8 -/

/-- C8: `registerUses` is a no-op for a non-final sub-expression (child
of a `Member` or left child of an `ArrayIndex`), when the current
definitions are unreachable, and when the recorded read set is null or
empty; otherwise it emits `WARN_UNINITIALIZED_USE` exactly when
reporting is on, `lhs` is off and the reaching points contain
before-start — message "may be uninitialized" for base types, "may not
be completely initialized" otherwise — and in every surviving case adds
the reaching points to `HasUses`. -/
theorem C8_registerUses (env : Env) (ctx : List Node) (st : FUState)
    (e : Expr) (report : Bool) :
    (isFinalRead ctx e = false → registerUses env ctx st e report = st)
    ∧ ((env.defsAt st.currentPoint).isUnreachable = true →
        registerUses env ctx st e report = st)
    ∧ (lookupReads st.readLocations e = none →
        registerUses env ctx st e report = st)
    ∧ (∀ read, lookupReads st.readLocations e = some read → read.isEmpty = true →
        registerUses env ctx st e report = st)
    ∧ (∀ read, isFinalRead ctx e = true →
        (env.defsAt st.currentPoint).isUnreachable = false →
        lookupReads st.readLocations e = some read → read.isEmpty = false →
        registerUses env ctx st e report =
          { st with
            diags := st.diags ++
              (if report && !st.lhs
                  && containsBeforeStart ((env.defsAt st.currentPoint).getPoints read) then
                [Diagnostic.warnUninitializedUse
                  (if env.typeOf e = Ty.base then "may be uninitialized"
                   else "may not be completely initialized") e]
              else []),
            hasUses := st.hasUses.add ((env.defsAt st.currentPoint).getPoints read) }) := by
  refine ⟨fun h1 => ?_, fun h2 => ?_, fun h3 => ?_, fun read hl h4 => ?_,
    fun read h1 h2 hl h4 => ?_⟩
  · simp [registerUses, h1]
  · by_cases h1 : (!isFinalRead ctx e) = true
    · simp [registerUses, h1]
    · simp [registerUses, h1, h2]
  · by_cases h1 : (!isFinalRead ctx e) = true
    · simp [registerUses, h1]
    · by_cases h2 : (env.defsAt st.currentPoint).isUnreachable = true
      · simp [registerUses, h1, h2]
      · simp [registerUses, h1, h2, h3]
  · by_cases h1 : (!isFinalRead ctx e) = true
    · simp [registerUses, h1]
    · by_cases h2 : (env.defsAt st.currentPoint).isUnreachable = true
      · simp [registerUses, h1, h2]
      · simp [registerUses, h1, h2, hl, h4]
  · by_cases h5 : (report && !st.lhs
        && containsBeforeStart ((env.defsAt st.currentPoint).getPoints read)) = true
    · simp [registerUses, h1, h2, hl, h4, h5]
    · simp [registerUses, h1, h2, hl, h4, h5]

/-- Witness for C8: a final read of a storage location whose reaching
points contain before-start warns and records the use. -/
theorem C8_registerUses_witness :
    registerUses
      { envDefault with defsAt := fun _ => ⟨fun _ => [ProgramPoint.beforeStart], false⟩ }
      []
      { initState huEmpty with
          readLocations := [(Expr.pathExpr "x" 1, LocationSet.storage "x")] }
      (Expr.pathExpr "x" 1) true =
    { { initState huEmpty with
          readLocations := [(Expr.pathExpr "x" 1, LocationSet.storage "x")] } with
        diags := [] ++
          (if true && !false && containsBeforeStart [ProgramPoint.beforeStart] then
            [Diagnostic.warnUninitializedUse
              (if envDefault.typeOf (Expr.pathExpr "x" 1) = Ty.base
               then "may be uninitialized"
               else "may not be completely initialized") (Expr.pathExpr "x" 1)]
          else []),
        hasUses := huEmpty.add [ProgramPoint.beforeStart] } :=
  (C8_registerUses
      { envDefault with defsAt := fun _ => ⟨fun _ => [ProgramPoint.beforeStart], false⟩ }
      []
      { initState huEmpty with
          readLocations := [(Expr.pathExpr "x" 1, LocationSet.storage "x")] }
      (Expr.pathExpr "x" 1) true).2.2.2.2
    (LocationSet.storage "x") rfl rfl rfl rfl

/-! ## C3 and C9: checkOutParameters -/

/-- An environment in which every type is empty according to
`typeIsEmpty` while storage exists for every name. -/
def envEmptyTy : Env := { envDefault with typeIsEmpty := fun _ => true }

/-- A definitions oracle whose reaching points always contain the
before-start sentinel. -/
def defsBeforeStart : Definitions := ⟨fun _ => [ProgramPoint.beforeStart], false⟩

/-- C3 counterexample: an out parameter whose storage exists and whose
reaching points (with headers removed) contain before-start, but whose
storage type is empty per `typeIsEmpty`: `checkOutParameters` emits no
`WARN_UNINITIALIZED_OUT_PARAM`, refuting the claimed "if and only if". -/
theorem C3_counterexample :
    envEmptyTy.storageOf "p" = some ⟨"p", Ty.base⟩
    ∧ containsBeforeStart (defsBeforeStart.getPoints (Storage.removeHeadersLoc ⟨"p", Ty.base⟩)) = true
    ∧ (checkOutParameters envEmptyTy "blk" [⟨"p", Direction.dirOut⟩]
        defsBeforeStart (initState huEmpty)).diags = [] :=
  ⟨rfl, rfl, rfl⟩

/-- C3 (amended): for every parameter of direction Out or InOut that has
storage, `checkOutParameters` adds the reaching points for the storage's
full location set to `HasUses`, and — provided the storage's type is not
empty per `typeIsEmpty` — emits `WARN_UNINITIALIZED_OUT_PARAM` naming
the parameter and block if and only if the reaching points for the
storage with header locations removed contain the before-start
sentinel. -/
theorem C3_checkOutParameters (env : Env) (blockName : String)
    (defs : Definitions) (st : FUState) (p : Param) (storage : Storage)
    (hd : p.direction = Direction.dirOut ∨ p.direction = Direction.dirInOut)
    (hs : env.storageOf p.name = some storage) :
    checkOutParameters env blockName [p] defs st =
      (let st1 := { st with
        hasUses := st.hasUses.add (defs.getPoints (LocationSet.ofStorage storage)) }
      if env.typeIsEmpty storage.ty then st1
      else if containsBeforeStart (defs.getPoints storage.removeHeadersLoc) then
        { st1 with diags := st1.diags ++
            [Diagnostic.warnUninitializedOutParam p.name blockName] }
      else st1) := by
  rcases hd with hd | hd <;>
    simp [checkOutParameters, checkOutParam1, hd, hs]

/-- Witness for C3 (amended): an out parameter of non-empty type with a
before-start reaching point gets the warning. -/
theorem C3_checkOutParameters_witness :
    checkOutParameters envDefault "blk" [⟨"p", Direction.dirOut⟩]
        defsBeforeStart (initState huEmpty) =
      (let st1 := { initState huEmpty with
        hasUses := (initState huEmpty).hasUses.add
          (defsBeforeStart.getPoints (LocationSet.ofStorage ⟨"p", Ty.base⟩)) }
      if envDefault.typeIsEmpty Ty.base then st1
      else if containsBeforeStart (defsBeforeStart.getPoints
          (Storage.removeHeadersLoc ⟨"p", Ty.base⟩)) then
        { st1 with diags := st1.diags ++
            [Diagnostic.warnUninitializedOutParam "p" "blk"] }
      else st1) :=
  C3_checkOutParameters envDefault "blk" defsBeforeStart (initState huEmpty)
    ⟨"p", Direction.dirOut⟩ ⟨"p", Ty.base⟩ (Or.inl rfl) rfl

/-- C9: for every Out or InOut parameter whose storage type is empty per
`typeIsEmpty`, `checkOutParameters` never emits
`WARN_UNINITIALIZED_OUT_PARAM` for it — even when the reaching points
contain before-start — while the reaching points for the storage's full
location set are still added to `HasUses` before the skip. -/
theorem C9_checkOutParameters_emptyType (env : Env) (blockName : String)
    (defs : Definitions) (st : FUState) (p : Param) (storage : Storage)
    (hd : p.direction = Direction.dirOut ∨ p.direction = Direction.dirInOut)
    (hs : env.storageOf p.name = some storage)
    (he : env.typeIsEmpty storage.ty = true) :
    checkOutParameters env blockName [p] defs st =
      { st with
        hasUses := st.hasUses.add (defs.getPoints (LocationSet.ofStorage storage)) } := by
  rcases hd with hd | hd <;>
    simp [checkOutParameters, checkOutParam1, hd, hs, he]

/-- Witness for C9: with an empty storage type and before-start reaching
points, the diagnostics stay empty while the points are added. -/
theorem C9_checkOutParameters_emptyType_witness :
    checkOutParameters envEmptyTy "blk" [⟨"p", Direction.dirInOut⟩]
        defsBeforeStart (initState huEmpty) =
      { initState huEmpty with
        hasUses := (initState huEmpty).hasUses.add
          (defsBeforeStart.getPoints (LocationSet.ofStorage ⟨"p", Ty.base⟩)) } :=
  C9_checkOutParameters_emptyType envEmptyTy "blk" defsBeforeStart
    (initState huEmpty) ⟨"p", Direction.dirInOut⟩ ⟨"p", Ty.base⟩ (Or.inr rfl) rfl rfl

/-! ## C2: the SliceTracker skip and the covering slice-write scenario -/

/-- A point whose `last` node exists is not the before-start sentinel. -/
theorem last_some_not_beforeStart (p : ProgramPoint) (n : Node)
    (h : p.last = some n) : p.isBeforeStart = false := by
  rcases p with ⟨_ | ⟨x, xs⟩⟩
  · simp [ProgramPoint.last] at h
  · simp [ProgramPoint.isBeforeStart]

/-- Skipped points contribute nothing to the `add` loop. -/
theorem addPointsLoop_filter (t : SliceTracker) (points : List ProgramPoint)
    (acc : List Nat) :
    addPointsLoop t acc points =
      addPointsLoop t acc (points.filter (fun q => !(t.overwrites q))) := by
  induction points generalizing acc with
  | nil => rfl
  | cons p rest ih =>
    by_cases h : t.overwrites p = true
    · simp [addPointsLoop, h, ih]
    · simp only [Bool.not_eq_true] at h
      simp [addPointsLoop, h, ih]

/-- The first slice-assignment of the C2 scenario: `a[7:4] = 10`. -/
def sliceA1 : Stmt := .assign (.sliceE (.pathExpr "a" 1) 7 4 2) (.constant 10 3) 100 10

/-- The second, covering slice-assignment: `a[7:0] = 188`. -/
def sliceA2 : Stmt := .assign (.sliceE (.pathExpr "a" 4) 7 0 5) (.constant 188 6) 101 11

/-- The scenario block: the two consecutive slice writes. -/
def sliceBlk : Stmt := .block [sliceA1, sliceA2] 12

/-- The definitions oracle for the scenario: after the first assignment
the write reaching any location is the first assignment; before it,
nothing has been written. -/
def envSlice : Env :=
  { envDefault with defsAt := fun p =>
      ⟨fun _ =>
        match p.last with
        | some n =>
          if n.nodeId = sliceA1.sid then [ProgramPoint.single (.stmtN sliceA1)]
          else [ProgramPoint.beforeStart]
        | none => [ProgramPoint.beforeStart], false⟩ }

/-- C2: while the tracker is active for bounds `(h, l)`, `HasUses.add`
skips every point whose last node is an assignment to a slice with
bounds `(h', l')` with `h ≥ h'` and `l ≤ l'` — skipped points are never
inserted; consequently, in the concrete run `a[7:4] = 10; a[7:0] = 188`
with no other readers, the first assignment is absent from `HasUses` and
`RemoveUnused` deletes it (its RHS is side-effect free). -/
theorem C2_sliceTracker_skip :
    (∀ (hi lo prevHi prevLo : Nat) (base rhs : Expr) (si sid eid : Nat)
        (p : ProgramPoint),
      prevHi ≤ hi → lo ≤ prevLo →
      p.last = some (.stmtN (.assign (.sliceE base prevHi prevLo eid) rhs si sid)) →
      SliceTracker.overwrites ⟨some (hi, lo)⟩ p = true)
    ∧ (∀ (hu : HasUses) (points : ProgramPoints),
        (hu.add points).used =
          (hu.add (points.filter (fun q => !(hu.tracker.overwrites q)))).used)
    ∧ (visitStmt envSlice 30 [] (initState huEmpty) sliceBlk).map
        (fun st => st.hasUses.hasUsesB (.stmtN sliceA1)) = .ok false
    ∧ (visitStmt envSlice 30 [] (initState huEmpty) sliceBlk).map
        (fun st => removeUnusedAssign ruEnvPure st.hasUses sliceA1
          (.sliceE (.pathExpr "a" 1) 7 4 2) (.constant 10 3) 100 10)
        = .ok (.ok (.emptyS 0)) := by
  refine ⟨fun hi lo prevHi prevLo base rhs si sid eid p h1 h2 hl => ?_,
    fun hu points => ?_, ?_, ?_⟩
  · simp [SliceTracker.overwrites, last_some_not_beforeStart p _ hl, hl,
      SliceTracker.overwritesPrevious, h1, h2]
  · simp [HasUses.add, addPointsLoop_filter hu.tracker points hu.used]
  · rfl
  · rfl

/-- Witness for C2: the skip predicate holds for the scenario's covered
point, and `add` inserts nothing from a list containing only it. -/
theorem C2_sliceTracker_skip_witness :
    SliceTracker.overwrites ⟨some (7, 0)⟩ (ProgramPoint.single (.stmtN sliceA1)) = true
    ∧ (HasUses.add ⟨[], ⟨some (7, 0)⟩⟩
        [ProgramPoint.single (.stmtN sliceA1)]).used =
      (HasUses.add ⟨[], ⟨some (7, 0)⟩⟩
        ([ProgramPoint.single (.stmtN sliceA1)].filter
          (fun q => !(SliceTracker.overwrites ⟨some (7, 0)⟩ q)))).used :=
  ⟨C2_sliceTracker_skip.1 7 0 7 4 (.pathExpr "a" 1) (.constant 10 3) 100 10 2
      (ProgramPoint.single (.stmtN sliceA1)) (by decide) (by decide) rfl,
    C2_sliceTracker_skip.2.1 ⟨[], ⟨some (7, 0)⟩⟩ [ProgramPoint.single (.stmtN sliceA1)]⟩

/-! ## C10: the tracker is always inactive after a slice visit -/

/-- Inversion of a successful `Except` bind. -/
theorem bind_ok_inv {α β : Type} {m : Except String α} {f : α → Except String β}
    {b : β} (h : (m >>= f) = .ok b) : ∃ a, m = .ok a ∧ f a = .ok b := by
  cases m with
  | error e => simp [Bind.bind, Except.bind] at h
  | ok a => exact ⟨a, rfl, h⟩

/-- Reduction of a successful `Except` bind. -/
theorem exceptOkBind {ε α β : Type} (a : α) (f : α → Except ε β) :
    (Except.ok a >>= f : Except ε β) = f a := rfl

/-- The earlier covered slice write of the C10 scenario: `x[7:0] = 1`. -/
def nestPrev : Stmt := .assign (.sliceE (.pathExpr "x" 20) 7 0 21) (.constant 1 22) 200 23

/-- The C10 scenario statement: `(x[7:0])[7:0] = 2`, a slice nested
inside an LHS slice's base expression. -/
def nestCur : Stmt :=
  .assign (.sliceE (.sliceE (.pathExpr "x" 24) 7 0 25) 7 0 26) (.constant 2 27) 201 28

/-- A definitions oracle whose reaching points always name the earlier
covered slice write `nestPrev`. -/
def envNest : Env :=
  { envDefault with defsAt := fun _ =>
      ⟨fun _ => [ProgramPoint.single (.stmtN nestPrev)], false⟩ }

/-- C10: whenever `FindUninitialized` finishes visiting a `Slice`
expression, the tracker is inactive — `doneWatching` runs unconditionally
on exit, including for slices that did not activate the tracker.  In the
concrete nested run `(x[7:0])[7:0] = 2`, the inner slice (not on an LHS
position with `lhs` set) deactivates the outer slice's tracker before the
outer visit completes, so the covered earlier write `x[7:0] = 1` is
inserted into `HasUses` instead of being skipped; the tracker is inactive
afterwards. -/
theorem C10_tracker_inactive_after_slice :
    (∀ (env : Env) (fuel : Nat) (ctx : List Node) (st : FUState)
        (e0 : Expr) (hi lo eid : Nat) (st' : FUState),
      visitExpr env fuel ctx st (.sliceE e0 hi lo eid) = .ok st' →
      st'.hasUses.tracker = ⟨none⟩)
    ∧ (visitStmt envNest 30 [] (initState huEmpty) nestCur).map
        (fun st => st.hasUses.hasUsesB (.stmtN nestPrev)) = .ok true
    ∧ (visitStmt envNest 30 [] (initState huEmpty) nestCur).map
        (fun st => st.hasUses.tracker) = .ok ⟨none⟩ := by
  refine ⟨fun env fuel ctx st e0 hi lo eid st' h => ?_, rfl, rfl⟩
  cases fuel with
  | zero => simp [visitExpr] at h
  | succ n =>
    simp only [visitExpr] at h
    split at h
    · obtain ⟨hu, hw, h⟩ := bind_ok_inv h
      obtain ⟨y, hy, h⟩ := bind_ok_inv h
      obtain ⟨st3, h3, h⟩ := bind_ok_inv h
      obtain ⟨storage, hs, h⟩ := bind_ok_inv h
      obtain ⟨st4, h4, h⟩ := bind_ok_inv h
      simp only [Except.ok.injEq] at h
      subst h
      rfl
    · obtain ⟨y, hy, h⟩ := bind_ok_inv h
      obtain ⟨st3, h3, h⟩ := bind_ok_inv h
      obtain ⟨storage, hs, h⟩ := bind_ok_inv h
      obtain ⟨st4, h4, h⟩ := bind_ok_inv h
      simp only [Except.ok.injEq] at h
      subst h
      rfl

/-- Witness for C10: the inactivity invariant at a concrete slice
visit. -/
theorem C10_tracker_inactive_after_slice_witness :
    ∃ st', visitExpr envDefault 5 [] (initState huEmpty)
        (.sliceE (.pathExpr "x" 1) 7 0 2) = .ok st'
      ∧ st'.hasUses.tracker = ⟨none⟩ :=
  ⟨_, rfl, C10_tracker_inactive_after_slice.1 envDefault 5 [] (initState huEmpty)
    (.pathExpr "x" 1) 7 0 2 _ rfl⟩

/-! ## C4: header-field writes read the valid bit -/

/-- C4: on the left-hand side of an assignment, `checkHeaderFieldWrite`
records a read of the header's valid bit against the assigned expression
exactly when the walked parent has header type and the LHS is a strict
sub-expression of it: writing `h.f` records a read of `h`'s valid field
against `h.f` (and the derived location is the field of the valid-bit
set), while writing the whole header `h` leaves the state untouched and
records no valid-bit read. -/
theorem C4_checkHeaderFieldWrite (env : Env) (ctx : List Node) (st : FUState)
    (hname f : String) (i1 i2 : Nat) (stor : Storage)
    (hty : env.typeOf (.pathExpr hname i1) = Ty.header)
    (hfty : env.typeOf (.member (.pathExpr hname i1) f i2) ≠ Ty.header)
    (hs : env.storageOf hname = some stor)
    (hun : st.unreachable = false) :
    (∃ st',
      checkHeaderFieldWrite env ctx st
          (.member (.pathExpr hname i1) f i2) (.member (.pathExpr hname i1) f i2)
        = .ok (st', ((LocationSet.ofStorage stor).getValidField).getField f)
      ∧ lookupReads st'.readLocations (.member (.pathExpr hname i1) f i2)
        = some ((LocationSet.ofStorage stor).getValidField))
    ∧ checkHeaderFieldWrite env ctx st (.pathExpr hname i1) (.pathExpr hname i1)
        = .ok (st, LocationSet.ofStorage stor) := by
  constructor
  · refine ⟨registerUses env ctx ({ st with readLocations := ((Expr.member (Expr.pathExpr hname i1) f i2, (LocationSet.ofStorage stor).getValidField)) :: List.filter (fun q => q.1 ≠ Expr.member (Expr.pathExpr hname i1) f i2) st.readLocations }) (Expr.member (Expr.pathExpr hname i1) f i2) true, ?_, ?_⟩
    · simp [checkHeaderFieldWrite, hs, hty, hfty, readsRec, hun, exceptOkBind]
    · rw [(registerUses_preserves env ctx _ _ _).1]
      simp [lookupReads]
  · simp [checkHeaderFieldWrite, hs, hty, exceptOkBind]

/-- An environment in which every path expression has header type. -/
def envHeader : Env :=
  { envDefault with typeOf := fun e =>
      match e with
      | .pathExpr _ _ => Ty.header
      | _ => Ty.base }

/-- Witness for C4: a concrete `h.x = ...` records the valid-bit read;
`h = ...` does not. -/
theorem C4_checkHeaderFieldWrite_witness :
    (∃ st',
      checkHeaderFieldWrite envHeader [] (initState huEmpty)
          (.member (.pathExpr "h" 1) "x" 2) (.member (.pathExpr "h" 1) "x" 2)
        = .ok (st', ((LocationSet.ofStorage ⟨"h", Ty.base⟩).getValidField).getField "x")
      ∧ lookupReads st'.readLocations (.member (.pathExpr "h" 1) "x" 2)
        = some ((LocationSet.ofStorage ⟨"h", Ty.base⟩).getValidField))
    ∧ checkHeaderFieldWrite envHeader [] (initState huEmpty)
        (.pathExpr "h" 1) (.pathExpr "h" 1)
        = .ok (initState huEmpty, LocationSet.ofStorage ⟨"h", Ty.base⟩) :=
  C4_checkHeaderFieldWrite envHeader [] (initState huEmpty) "h" "x" 1 2
    ⟨"h", Ty.base⟩ rfl (by simp [envHeader, envDefault]) rfl rfl

/-! ## C7: stack members next, last and lastIndex -/

/-- `registerUses` preserves the read-location map. -/
theorem registerUses_rl (env : Env) (ctx : List Node) (st : FUState)
    (e : Expr) (r : Bool) :
    (registerUses env ctx st e r).readLocations = st.readLocations :=
  (registerUses_preserves env ctx st e r).1

/-- `registerUses` preserves the `lhs` flag. -/
theorem registerUses_lhs (env : Env) (ctx : List Node) (st : FUState)
    (e : Expr) (r : Bool) :
    (registerUses env ctx st e r).lhs = st.lhs :=
  (registerUses_preserves env ctx st e r).2.1

/-- C7: for a `Member` on a stack-typed base, after the base visit:
`next` and `last` record the base storage itself as the read set and
register the use with the uninitialized warning suppressed (no
`WARN_UNINITIALIZED_USE` is emitted by the member visit itself), but
`next` not on a LHS additionally emits `WARN_UNINITIALIZED` while `last`
never warns; `lastIndex` records the base storage's array-last-index
projection, also registered with the warning suppressed. -/
theorem C7_member_stack (env : Env) (fuel : Nat) (ctx : List Node)
    (st st1 : FUState) (e0 : Expr) (m : String) (i : Nat) (baseLoc : LocationSet)
    (hv : visitExpr env fuel (.exprN (.member e0 m i) :: ctx) st e0 = .ok st1)
    (htn : e0.isTypeNameE = false)
    (hhit : env.isHit (.member e0 m i) = false)
    (har : env.isActionRun (.member e0 m i) = false)
    (hmt : env.typeOf (.member e0 m i) ≠ Ty.method)
    (hread : lookupReads st1.readLocations e0 = some baseLoc)
    (hstack : env.typeOf e0 = Ty.stack)
    (hun : st1.unreachable = false) :
    visitExpr env (fuel+1) ctx st (.member e0 m i)
      = memberRest env ctx st1 e0 m i
    ∧ (m = "next" ∨ m = "last" →
        ∃ st', memberRest env ctx st1 e0 m i = .ok st'
          ∧ lookupReads st'.readLocations (.member e0 m i) = some baseLoc
          ∧ st'.diags = st1.diags ++
              (if st1.lhs = false ∧ m = "next"
               then [Diagnostic.warnUninitialized (.member e0 m i)] else []))
    ∧ (m = "lastIndex" →
        ∃ st', memberRest env ctx st1 e0 m i = .ok st'
          ∧ lookupReads st'.readLocations (.member e0 m i)
              = some baseLoc.getArrayLastIndex
          ∧ st'.diags = st1.diags) := by
  have hln : ("last" : String) ≠ "next" := by decide
  have hll : ("lastIndex" : String) ≠ "next" := by decide
  have hli : ("lastIndex" : String) ≠ "last" := by decide
  refine ⟨by simp [visitExpr, hv, exceptOkBind], fun hm => ?_, fun hm => ?_⟩
  · rcases hm with hm | hm <;> subst hm
    · -- member "next"
      cases hl : st1.lhs with
      | false =>
        exact ⟨_,
          by simp [memberRest, htn, hhit, har, hmt, getReadsNonNull, hread,
              readsRec, hun, hstack, exceptOkBind, registerUses_lhs, hl]
             rfl,
          by simp [registerUses_rl, lookupReads],
          by simp [registerUses_false_diags, hl]⟩
      | true =>
        exact ⟨_,
          by simp [memberRest, htn, hhit, har, hmt, getReadsNonNull, hread,
              readsRec, hun, hstack, exceptOkBind, registerUses_lhs, hl]
             rfl,
          by simp [registerUses_rl, lookupReads],
          by simp [registerUses_false_diags, hl]⟩
    · -- member "last"
      exact ⟨_,
        by simp [memberRest, htn, hhit, har, hmt, getReadsNonNull, hread,
            readsRec, hun, hstack, exceptOkBind, registerUses_lhs, hln]
           rfl,
        by simp [registerUses_rl, lookupReads],
        by simp [registerUses_false_diags, hln]⟩
  · -- member "lastIndex"
    subst hm
    exact ⟨_,
      by simp [memberRest, htn, hhit, har, hmt, getReadsNonNull, hread,
          readsRec, hun, hstack, exceptOkBind, hll, hli]
         rfl,
      by simp [registerUses_rl, lookupReads],
      by simp [registerUses_false_diags]⟩

/-- An environment whose path expressions are stack-typed. -/
def envStack : Env :=
  { envDefault with typeOf := fun e =>
      match e with
      | .pathExpr _ _ => Ty.stack
      | _ => Ty.base }

/-- The state after visiting the stack base `s` inside `s.next`. -/
def stStack : FUState :=
  { initState huEmpty with
      readLocations := [(Expr.pathExpr "s" 1, LocationSet.storage "s")] }

/-- Witness for C7: reading `s.next` on the RHS warns with
`WARN_UNINITIALIZED` and records the base storage as read set. -/
theorem C7_member_stack_witness :
    visitExpr envStack 4 [] (initState huEmpty) (.member (.pathExpr "s" 1) "next" 2)
      = memberRest envStack [] stStack (.pathExpr "s" 1) "next" 2
    ∧ ∃ st', memberRest envStack [] stStack (.pathExpr "s" 1) "next" 2 = .ok st'
      ∧ lookupReads st'.readLocations (.member (.pathExpr "s" 1) "next" 2)
          = some (LocationSet.storage "s")
      ∧ st'.diags = stStack.diags ++
          (if stStack.lhs = false ∧ "next" = "next"
           then [Diagnostic.warnUninitialized (.member (.pathExpr "s" 1) "next" 2)]
           else []) := by
  obtain h := C7_member_stack envStack 3 [] (initState huEmpty) stStack
    (.pathExpr "s" 1) "next" 2 (LocationSet.storage "s")
    rfl rfl rfl rfl (by decide) rfl rfl rfl
  exact ⟨h.1, h.2.1 (Or.inl rfl)⟩

/-! ## C5: non-void functions must return on all paths -/

/-- Whether a diagnostic is the `ERR_INSUFFICIENT` missing-return
error. -/
def Diagnostic.isInsufficient : Diagnostic → Bool
  | .errInsufficientReturn _ => true
  | _ => false

/-- `checkOutParameters` emits only out-parameter warnings for one
parameter: the missing-return errors among the diagnostics are
unchanged. -/
theorem checkOutParam1_insufficient (env : Env) (blockName : String)
    (defs : Definitions) (st : FUState) (p : Param) :
    List.filter (fun d => d.isInsufficient) (checkOutParam1 env blockName defs st p).diags
      = List.filter (fun d => d.isInsufficient) st.diags := by
  by_cases hd : (p.direction = Direction.dirOut ∨ p.direction = Direction.dirInOut)
  · rcases hs : env.storageOf p.name with _ | storage
    · simp [checkOutParam1, hd, hs]
    · by_cases he : env.typeIsEmpty storage.ty = true
      · simp [checkOutParam1, hd, hs, he]
      · by_cases hb : containsBeforeStart (defs.getPoints storage.removeHeadersLoc) = true
        · simp [checkOutParam1, hd, hs, he, hb, Diagnostic.isInsufficient]
        · simp [checkOutParam1, hd, hs, he, hb]
  · simp [checkOutParam1, hd]

/-- `checkOutParameters` leaves the missing-return errors among the
diagnostics unchanged. -/
theorem checkOutParameters_insufficient (env : Env) (blockName : String)
    (params : List Param) (defs : Definitions) (st : FUState) :
    List.filter (fun d => d.isInsufficient)
        (checkOutParameters env blockName params defs st).diags
      = List.filter (fun d => d.isInsufficient) st.diags := by
  induction params generalizing st with
  | nil => rfl
  | cons p rest ih =>
    simpa [checkOutParameters, List.foldl_cons] using
      (ih (checkOutParam1 env blockName defs st p)).trans
        (checkOutParam1_insufficient env blockName defs st p)

/-- C5: for a function with a non-void return type, after visiting the
body the pass emits `ERR_INSUFFICIENT` naming the function if and only
if the definitions holding after the body are not marked unreachable;
void functions never produce this error.  The equation is relative to
whatever the body visit itself emitted. -/
theorem C5_function_missing_return (env : Env) (fuel : Nat) (ctx : List Node)
    (st : FUState) (name : String) (retTy : Ty) (params : List Param)
    (body : Stmt) (did : Nat) (st2 : FUState)
    (hvm : st.virtualMethod = false)
    (hbody : visitStmt env fuel
        (.declN (.functionDecl name retTy params body did) :: ctx)
        { st with currentPoint :=
            st.context.snoc (.declN (.functionDecl name retTy params body did)) }
        body = .ok st2) :
    ∃ stF, visitDecl env (fuel+1) ctx st (.functionDecl name retTy params body did)
        = .ok stF
      ∧ List.filter (fun d => d.isInsufficient) stF.diags
          = List.filter (fun d => d.isInsufficient) st2.diags ++
            (if retTy ≠ Ty.voidTy ∧ (env.defsAt st2.currentPoint).isUnreachable = false
             then [Diagnostic.errInsufficientReturn name] else []) := by
  simp only [hvm] at hbody
  refine ⟨_, by simp [visitDecl, hvm, hbody, exceptOkBind]; rfl, ?_⟩
  rw [checkOutParameters_insufficient]
  by_cases hr : retTy = Ty.voidTy
  · simp [hr]
  · by_cases hu2 : (env.defsAt st2.currentPoint).isUnreachable = true
    · simp [hr, hu2]
    · simp only [Bool.not_eq_true] at hu2
      simp [hr, hu2, Diagnostic.isInsufficient]

/-- The function of the C5 witness: non-void return type, empty body. -/
def fdWit : Decl := .functionDecl "f" Ty.base [] (.block [] 40) 41

/-- The state after visiting `fdWit`'s empty body. -/
def st2Wit : FUState :=
  { initState huEmpty with currentPoint := ProgramPoint.single (.stmtN (.block [] 40)) }

/-- Witness for C5: a non-void function whose body falls through (the
definitions after the body are reachable) gets exactly one
`ERR_INSUFFICIENT`. -/
theorem C5_function_missing_return_witness :
    ∃ stF, visitDecl envDefault 5 [] (initState huEmpty) fdWit = .ok stF
      ∧ List.filter (fun d => d.isInsufficient) stF.diags
          = List.filter (fun d => d.isInsufficient) st2Wit.diags ++
            (if Ty.base ≠ Ty.voidTy
                ∧ (envDefault.defsAt st2Wit.currentPoint).isUnreachable = false
             then [Diagnostic.errInsufficientReturn "f"] else []) :=
  C5_function_missing_return envDefault 4 [] (initState huEmpty) "f" Ty.base []
    (.block [] 40) 41 st2Wit rfl rfl

/-! ## C6: the parser out-parameter check uses the accept/reject join -/

/-- C6: a parser's out-parameter check is performed against the join of
the definitions reaching the accept state and those reaching the reject
state; consequently a location whose reaching points contain before-start
on either of the two terminal paths (written on at most one of them) is
reported as potentially uninitialized. -/
theorem C6_parser_join :
    (∀ (env : Env) (fuel : Nat) (st : FUState) (parser : ParserIR)
        (st2 st3 : FUState),
      visitVirtualMethods env fuel [.parserN parser.pid]
          { st with currentPoint := ProgramPoint.single (.parserN parser.pid) }
          parser.locals = .ok st2 →
      visitParserStates env fuel st2 parser.states = .ok st3 →
      visitParser env fuel st parser =
        .ok (checkOutParameters env parser.name parser.applyParams
          ((env.defsAt (ProgramPoint.single (.stateN "accept" parser.acceptId))).joinDefinitions
            (env.defsAt (ProgramPoint.single (.stateN "reject" parser.rejectId))))
          { st3 with unreachable := false }))
    ∧ (∀ (env : Env) (blockName : String) (defsA defsB : Definitions)
        (st : FUState) (p : Param) (storage : Storage),
      p.direction = Direction.dirOut ∨ p.direction = Direction.dirInOut →
      env.storageOf p.name = some storage →
      env.typeIsEmpty storage.ty = false →
      (containsBeforeStart (defsA.getPoints storage.removeHeadersLoc) = true
        ∨ containsBeforeStart (defsB.getPoints storage.removeHeadersLoc) = true) →
      Diagnostic.warnUninitializedOutParam p.name blockName ∈
        (checkOutParameters env blockName [p]
          (defsA.joinDefinitions defsB) st).diags) := by
  constructor
  · intro env fuel st parser st2 st3 hvm hst
    simp [visitParser, hvm, hst, exceptOkBind]
  · intro env blockName defsA defsB st p storage hd hs hne hbs
    have hjoin : containsBeforeStart
        ((defsA.joinDefinitions defsB).getPoints storage.removeHeadersLoc) = true := by
      simp only [Definitions.joinDefinitions, containsBeforeStart, List.any_append]
      rcases hbs with hb | hb <;> simp only [containsBeforeStart] at hb <;> simp [hb]
    rw [C3_checkOutParameters env blockName (defsA.joinDefinitions defsB) st p storage hd hs]
    simp [hne, hjoin]

/-- The parser of the C6 witness: no locals, no states, one out
parameter. -/
def parserWit : ParserIR :=
  { name := "prs", locals := [], states := [], applyParams := [⟨"p", Direction.dirOut⟩],
    acceptId := 60, rejectId := 61, pid := 62 }

/-- The definitions oracle of the C6 witness: at the reject state every
location may still be unwritten (before-start), at the accept state
everything has been written. -/
def envParser : Env :=
  { envDefault with defsAt := fun pt =>
      ⟨fun _ =>
        match pt.last with
        | some n => if n.nodeId = 61 then [ProgramPoint.beforeStart] else []
        | none => [], false⟩ }

/-- Witness for C6: the parser's check runs on the accept/reject join,
and the parameter written only on the accept path is reported. -/
theorem C6_parser_join_witness :
    visitParser envParser 5 (initState huEmpty) parserWit =
      .ok (checkOutParameters envParser "prs" [⟨"p", Direction.dirOut⟩]
        ((envParser.defsAt (ProgramPoint.single (.stateN "accept" 60))).joinDefinitions
          (envParser.defsAt (ProgramPoint.single (.stateN "reject" 61))))
        { { initState huEmpty with
              currentPoint := ProgramPoint.single (.parserN 62) } with
            unreachable := false })
    ∧ Diagnostic.warnUninitializedOutParam "p" "prs" ∈
        (checkOutParameters envParser "prs" [⟨"p", Direction.dirOut⟩]
          ((envParser.defsAt (ProgramPoint.single (.stateN "accept" 60))).joinDefinitions
            (envParser.defsAt (ProgramPoint.single (.stateN "reject" 61))))
          (initState huEmpty)).diags :=
  ⟨C6_parser_join.1 envParser 5 (initState huEmpty) parserWit _ _ rfl rfl,
    C6_parser_join.2 envParser "prs"
      (envParser.defsAt (ProgramPoint.single (.stateN "accept" 60)))
      (envParser.defsAt (ProgramPoint.single (.stateN "reject" 61)))
      (initState huEmpty) ⟨"p", Direction.dirOut⟩ ⟨"p", Ty.base⟩
      (Or.inl rfl) rfl rfl (Or.inr rfl)⟩

end SimplifyDefUse
